import Mathlib

/-!
Shallow embedding of the P2P chat node (`network.py`, `chat.py`,
`file_transfer.py`) and proofs about the claims of its specification.

Conventions of the embedding:
* Byte strings are `List Nat` (each element `< 256` where it matters).
* Python dicts keyed by strings / ints are association lists; assignment
  to a key is modelled by `dictInsert` (remove the key, then append), and
  `del` by `dictRemove`.  The claims never depend on dict iteration order.
* Wall-clock values (`time.time()`) are threaded as explicit parameters:
  as a `String` where the code only ever stringifies them (envelope
  `timestamp` fields), and as a `Nat` where the code takes `int(time.time())`.
* Socket-level success or failure of a single `send` call is an oracle
  `ok : Addr → Bool`; I/O effects (files on disk, notifications) are
  returned as explicit components of each operation's result.
-/

namespace Socket

/-- A peer address `(host, port)`, the key of `ChatNetwork.peers`. -/
abbrev Addr := String × Nat

/-- Python `str()` of a field read with `dict.get`: `None` prints as `"None"`. -/
def pyStr : Option String → String
  | none => "None"
  | some s => s

/-- A wire envelope: a JSON object with a `type` field and optional
type-specific payload fields.  Every field that any envelope built by the
source may carry appears here as an `Option`, `none` meaning absent. -/
structure Envelope where
  etype : String
  timestamp : Option String := none
  sender : Option String := none
  content : Option String := none
  username : Option String := none
  status : Option String := none
  users : Option (List String) := none
  transfer_id : Option String := none
  chunk_index : Option Nat := none
  data : Option (List Char) := none
  chunks : Option (List Nat) := none
  file_name : Option String := none
  file_size : Option Nat := none
  chunk_size : Option Nat := none
  total_chunks : Option Nat := none
  file_hash : Option String := none
deriving DecidableEq

/-- `{"type": "heartbeat", "timestamp": ts}` (`network.py`). -/
def heartbeatMsg (ts : String) : Envelope :=
  { etype := "heartbeat", timestamp := some ts }

/-- `{"type": "chat", "sender": u, "content": c, "timestamp": ts}` (`chat.py`). -/
def chatMsg (u c ts : String) : Envelope :=
  { etype := "chat", sender := some u, content := some c, timestamp := some ts }

/-- `{"type": "system", "content": c, "timestamp": ts}`. -/
def systemMsg (c ts : String) : Envelope :=
  { etype := "system", content := some c, timestamp := some ts }

/-- `{"type": "presence", "username": u, "status": s, "timestamp": ts}`. -/
def presenceMsg (u s ts : String) : Envelope :=
  { etype := "presence", username := some u, status := some s, timestamp := some ts }

/-- `{"type": "user_update", "users": us, "timestamp": ts}`. -/
def userUpdateMsg (us : List String) (ts : String) : Envelope :=
  { etype := "user_update", users := some us, timestamp := some ts }

/-- `{"type": "file_chunk", ...}` built by `_send_file_chunk`. -/
def fileChunkMsg (tid : String) (i : Nat) (d : List Char) (u ts : String) : Envelope :=
  { etype := "file_chunk", transfer_id := some tid, chunk_index := some i,
    data := some d, sender := some u, timestamp := some ts }

/-- `{"type": "file_chunk_ack", ...}` built by `_handle_file_chunk`. -/
def fileChunkAckMsg (tid : String) (i : Nat) (ts : String) : Envelope :=
  { etype := "file_chunk_ack", transfer_id := some tid, chunk_index := some i,
    timestamp := some ts }

/-- `{"type": "file_chunk_request", ...}` built by `_request_missing_chunks`. -/
def fileChunkRequestMsg (tid : String) (cs : List Nat) (ts : String) : Envelope :=
  { etype := "file_chunk_request", transfer_id := some tid, chunks := some cs,
    timestamp := some ts }

/-- `{"type": "file_transfer_complete", ...}` built by `_send_file_chunks`. -/
def fileTransferCompleteMsg (tid u ts : String) : Envelope :=
  { etype := "file_transfer_complete", transfer_id := some tid, sender := some u,
    timestamp := some ts }

/-- `{"type": "file_metadata", ...}` built by `send_file`. -/
def fileMetadataMsg (tid fname : String) (fsize csize tchunks : Nat)
    (fhash u ts : String) : Envelope :=
  { etype := "file_metadata", transfer_id := some tid, file_name := some fname,
    file_size := some fsize, chunk_size := some csize, total_chunks := some tchunks,
    file_hash := some fhash, sender := some u, timestamp := some ts }

/-- Duplicate-suppression fingerprint of `_handle_peer`:
`f"{message.get('timestamp')}_{message.get('sender')}"`. -/
def fingerprint (e : Envelope) : String :=
  pyStr e.timestamp ++ "_" ++ pyStr e.sender

/-- One inbound envelope through the dedup check of `_handle_peer`
(`network.py` lines 54-65): if the fingerprint was seen, drop silently;
otherwise record it (bounding the set at `message_ttl = 100`; Python's
`set.pop()` removes an arbitrary element, modelled here as dropping the
oldest recorded fingerprint) and invoke `message_callback`.  The second
component accumulates the envelopes handed to the callback. -/
def processInbound (processed : List String) (cb : List Envelope) (e : Envelope) :
    List String × List Envelope :=
  let fp := fingerprint e
  if fp ∈ processed then (processed, cb)
  else
    let p := fp :: processed
    (if 100 < p.length then p.dropLast else p, cb ++ [e])

/-- `send_to_peer`: fails if the address is not a current peer; on a socket
error (`ok a = false`) the peer is removed (`_remove_peer`) and the call
returns `False`.  Returns the new peer-key list and the success flag. -/
def sendToPeer (peers : List Addr) (ok : Addr → Bool) (a : Addr) :
    List Addr × Bool :=
  if a ∈ peers then
    if ok a then (peers, true) else (peers.erase a, false)
  else (peers, false)

/-- The loop body of `_broadcast_message`: send to each listed address in
turn, or-ing the per-peer successes, and record which addresses actually
received the envelope on their socket. -/
def broadcastLoop (ok : Addr → Bool) :
    List Addr → List Addr → Bool → List Addr → List Addr × Bool × List Addr
  | [], peers, succ, delivered => (peers, succ, delivered)
  | a :: rest, peers, succ, delivered =>
    let r := sendToPeer peers ok a
    broadcastLoop ok rest r.1 (succ || r.2) (if r.2 then delivered ++ [a] else delivered)

/-- `_broadcast_message` (`chat.py` lines 202-211): returns `False` at once
if the `users` table is empty, else iterates `list(self.users.keys())`.
Result: final peer set, the returned success flag, and the list of
addresses whose socket was handed the envelope. -/
def broadcastMessage (users peers : List Addr) (ok : Addr → Bool) :
    List Addr × Bool × List Addr :=
  if users.isEmpty then (peers, false, [])
  else broadcastLoop ok users peers false []

/-- `ChatUser` (`chat.py`): username, status string, last-seen time. -/
structure ChatUser where
  username : String
  status : String
  last_seen : String
deriving DecidableEq

/-- The chat-layer state the claims touch: the `users` table keyed by
address and the bounded `message_history`. -/
structure ChatState where
  users : List (Addr × ChatUser)
  history : List Envelope
deriving DecidableEq

/-- `_add_to_history`: append, then `pop(0)` when the length exceeds
`MAX_HISTORY = 100`. -/
def addToHistory (h : List Envelope) (m : Envelope) : List Envelope :=
  let h2 := h ++ [m]
  if 100 < h2.length then h2.drop 1 else h2

/-- `get_online_users`: usernames of users whose status is `"online"`. -/
def getOnlineUsers (users : List (Addr × ChatUser)) : List String :=
  (users.filter (fun kv => kv.2.status = "online")).map (fun kv => kv.2.username)

/-- `_handle_presence_update`: create the user on first contact (emitting a
"... connected" system notification), set its status and last-seen time,
then always emit a `user_update` callback. -/
def handlePresenceUpdate (st : ChatState) (addr : Addr) (e : Envelope)
    (now : String) : ChatState × List Envelope :=
  let uname := e.username.getD ""
  let stat := e.status.getD ""
  let isNew := (st.users.lookup addr).isNone
  let users1 := if isNew then st.users ++ [(addr, ⟨uname, "offline", "0"⟩)] else st.users
  let users2 := users1.map (fun kv =>
    if kv.1 = addr then (kv.1, { kv.2 with status := stat, last_seen := now }) else kv)
  ({ st with users := users2 },
   (if isNew then [systemMsg (uname ++ " connected") now] else []) ++
     [userUpdateMsg (getOnlineUsers users2) now])

/-- Result of the chat layer's `_handle_message`: the new state, the
envelopes passed to the registered callbacks, and the envelope delegated
to the `FileTransferManager`, if any. -/
structure HandleOut where
  st : ChatState
  cbs : List Envelope
  toFile : Option Envelope
deriving DecidableEq

/-- `_handle_message` (`chat.py` lines 118-149): type dispatch.  Heartbeats
are silently dropped; chat and system envelopes go to history and the
callbacks; presence updates the user table; the five file-transfer types
are delegated to the `FileTransferManager`. -/
def handleMessage (st : ChatState) (addr : Addr) (e : Envelope) (now : String) :
    HandleOut :=
  if e.etype = "heartbeat" then ⟨st, [], none⟩
  else if e.etype = "chat" then
    ⟨{ st with history := addToHistory st.history e }, [e], none⟩
  else if e.etype = "presence" then
    let r := handlePresenceUpdate st addr e now
    ⟨r.1, r.2, none⟩
  else if e.etype = "system" then
    ⟨{ st with history := addToHistory st.history e }, [e], none⟩
  else if e.etype = "file_metadata" ∨ e.etype = "file_chunk" ∨
      e.etype = "file_transfer_complete" ∨ e.etype = "file_chunk_ack" ∨
      e.etype = "file_chunk_request" then
    ⟨st, [], some e⟩
  else ⟨st, [], none⟩

/-- `send_message`: build the chat envelope, append it to history, then
broadcast it to the user table's addresses. -/
def sendMessage (st : ChatState) (username content ts : String)
    (peers : List Addr) (ok : Addr → Bool) : ChatState × Bool :=
  let m := chatMsg username content ts
  ({ st with history := addToHistory st.history m },
   (broadcastMessage (st.users.map (fun kv => kv.1)) peers ok).2.1)

/-- `ChatNetwork.connect_to_peer`: dial; on success register the address in
the peer set (dict assignment: keys unchanged if already present) and
return `True`; on a dial error return `False`.  `dialOk` is the outcome of
the `socket.connect` attempt. -/
def netConnectToPeer (peers : List Addr) (dialOk : Bool) (host : String)
    (port : Nat) : List Addr × Bool :=
  if dialOk then
    (if (host, port) ∈ peers then peers else peers ++ [(host, port)], true)
  else (peers, false)

/-- `ChatRoom.connect_to_peer` (`chat.py` lines 84-104): refuse to dial
self (`localhost`/`127.0.0.1` with our own listen port), else delegate to
the network layer.  The presence envelope sent on success does not affect
the peer set and is omitted here. -/
def chatConnectToPeer (selfPort : Nat) (peers : List Addr) (dialOk : Bool)
    (host : String) (port : Nat) : List Addr × Bool :=
  if (host = "localhost" ∨ host = "127.0.0.1") ∧ port = selfPort then (peers, false)
  else netConnectToPeer peers dialOk host port

/-! ### FileTransferManager (`file_transfer.py`) -/

/-- Dict assignment `d[k] = v`: the key is (re)bound to `v`.  Modelled by
removing any existing binding and appending the new one; the claims do not
depend on dict iteration order. -/
def dictInsert {α : Type} (k : String) (v : α) (l : List (String × α)) :
    List (String × α) :=
  l.filter (fun kv => kv.1 ≠ k) ++ [(k, v)]

/-- Dict deletion `del d[k]`. -/
def dictRemove {α : Type} (k : String) (l : List (String × α)) :
    List (String × α) :=
  l.filter (fun kv => kv.1 ≠ k)

/-- `self.chunk_size = 4096`. -/
def chunkSize : Nat := 4096

/-- `total_chunks = (file_size + self.chunk_size - 1) // self.chunk_size`. -/
def totalChunks (fileSize : Nat) : Nat := (fileSize + chunkSize - 1) / chunkSize

/-- The bytes `_send_file_chunk` reads for chunk `i`:
`f.seek(chunk_index * self.chunk_size); f.read(self.chunk_size)`. -/
def fileChunk (B : List Nat) (i : Nat) : List Nat :=
  (B.drop (i * chunkSize)).take chunkSize

/-- `transfer_id = f"{int(time.time())}_{self.chat_room.username}_{file_name}"`. -/
def transferId (now : Nat) (username fileName : String) : String :=
  toString now ++ "_" ++ username ++ "_" ++ fileName

/-- `os.path.basename`: the component after the last `/` (the accumulator
restarts at every separator). -/
def baseName (p : String) : String :=
  (p.data.foldl (fun acc c => if c = '/' then [] else acc ++ [c]) []).asString

/-- The base64 alphabet used by `base64.b64encode`. -/
def b64alphabet : List Char :=
  "ABCDEFGHIJKLMNOPQRSTUVWXYZabcdefghijklmnopqrstuvwxyz0123456789+/".data

/-- The character encoding a 6-bit group. -/
def b64char (i : Nat) : Char := b64alphabet.getD i '='

/-- The 6-bit value of an alphabet character (inverse lookup). -/
def b64value (c : Char) : Nat := b64alphabet.indexOf c

/-- `base64.b64encode` on a byte string: 3 bytes become 4 alphabet
characters; a trailing group of 1 or 2 bytes is padded with `=`. -/
def b64encode : List Nat → List Char
  | a :: b :: c :: rest =>
    b64char (a / 4) :: b64char (a % 4 * 16 + b / 16) ::
      b64char (b % 16 * 4 + c / 64) :: b64char (c % 64) :: b64encode rest
  | [a, b] => [b64char (a / 4), b64char (a % 4 * 16 + b / 16), b64char (b % 16 * 4), '=']
  | [a] => [b64char (a / 4), b64char (a % 4 * 16), '=', '=']
  | [] => []

/-- `base64.b64decode` on well-formed input: each group of 4 characters
yields 3 bytes, or 1-2 bytes when the group ends in `=` padding. -/
def b64decode : List Char → List Nat
  | a :: b :: c :: d :: rest =>
    let x := b64value a
    let y := b64value b
    if c = '=' then [x * 4 + y / 16]
    else
      let z := b64value c
      if d = '=' then [x * 4 + y / 16, y % 16 * 16 + z / 4]
      else (x * 4 + y / 16) :: (y % 16 * 16 + z / 4) :: (z % 4 * 64 + b64value d) ::
        b64decode rest
  | _ => []

/-- Sender-side transfer record created by `send_file` (the wall-clock
fields `started_at`/`last_activity` and `retry_counts` are not read by any
claim and are omitted). -/
structure SendingTransfer where
  file_path : String
  file_size : Nat
  total_chunks : Nat
  status : String
  acked_chunks : List Nat
deriving DecidableEq

/-- `send_file` (`file_transfer.py` lines 138-192): return `False` if the
file does not exist; record the outgoing transfer; broadcast the metadata
envelope (through `_broadcast_message` over the chat layer's user table);
on a failed broadcast delete the record and return `False`, else `True`.
`fs` maps a path to the file's bytes (`none` when the file is missing).
The result is the new `sending_transfers` table and the returned flag. -/
def sendFile (fs : String → Option (List Nat)) (username : String) (now : Nat)
    (users peers : List Addr) (ok : Addr → Bool)
    (sending : List (String × SendingTransfer)) (filePath : String) :
    List (String × SendingTransfer) × Bool :=
  match fs filePath with
  | none => (sending, false)
  | some bytes =>
    let tid := transferId now username (baseName filePath)
    let t : SendingTransfer :=
      { file_path := filePath, file_size := bytes.length,
        total_chunks := totalChunks bytes.length, status := "sending",
        acked_chunks := [] }
    let sending2 := dictInsert tid t sending
    if (broadcastMessage users peers ok).2.1 then (sending2, true)
    else (dictRemove tid sending2, false)

/-- The `file_chunk` envelopes emitted by `_send_file_chunks`' first pass:
one per index in `range(total_chunks)`, except that `_send_file_chunk`
skips an empty read (`if chunk:`). -/
def chunkEnvelopes (B : List Nat) (tid u ts : String) : List Envelope :=
  (List.range (totalChunks B.length)).filterMap (fun i =>
    if (fileChunk B i).isEmpty then none
    else some (fileChunkMsg tid i (b64encode (fileChunk B i)) u ts))

/-- The guard of `_send_file_chunks`' ack-wait loop:
`len(self.sending_transfers[transfer_id]["acked_chunks"]) < total_chunks`. -/
def ackWaitNeeded (acked : List Nat) (total : Nat) : Bool :=
  acked.length < total

/-- Receiver-side transfer record registered by `_handle_file_metadata`
(wall-clock fields omitted). -/
structure IncomingTransfer where
  file_path : String
  file_size : Nat
  received_chunks : List (Nat × List Nat)
  total_chunks : Nat
  chunk_size : Nat
  file_hash : String
  sender : String
  status : String
  temp_dir : Option String
deriving DecidableEq

/-- Receiver-side state of the `FileTransferManager`. -/
structure FTRecvState where
  ongoing : List (String × IncomingTransfer)
  completed : List (String × IncomingTransfer)
deriving DecidableEq

/-- `_handle_file_metadata`: register the incoming transfer under its
`transfer_id`.  `savePath` is the collision-free destination chosen from
`download_dir` and the current time, and `tmpDir` the `tempfile.mkdtemp`
result, used only when the advertised size exceeds 5 MiB; both are
injected because they come from the OS.  The emitted "Receiving file ..."
notification formats the size through float division and is not
modelled. -/
def handleFileMetadata (savePath tmpDir : String) (m : Envelope)
    (st : FTRecvState) : FTRecvState :=
  let tid := (m.transfer_id).getD ""
  let fsize := (m.file_size).getD 0
  let t : IncomingTransfer :=
    { file_path := savePath, file_size := fsize, received_chunks := [],
      total_chunks := (m.total_chunks).getD 0, chunk_size := (m.chunk_size).getD 0,
      file_hash := (m.file_hash).getD "", sender := (m.sender).getD "",
      status := "receiving",
      temp_dir := if 5 * 1024 * 1024 < fsize then some tmpDir else none }
  { st with ongoing := dictInsert tid t st.ongoing }

/-- Dict assignment `received_chunks[chunk_index] = decoded_data`
(in-memory branch of `_handle_file_chunk`). -/
def storeChunk (rc : List (Nat × List Nat)) (i : Nat) (d : List Nat) :
    List (Nat × List Nat) :=
  rc.filter (fun kv => kv.1 ≠ i) ++ [(i, d)]

/-- The assembly loop of `_handle_transfer_complete`: write chunks
`0 .. total_chunks - 1` in index order, skipping absent indices. -/
def assembleChunks (rc : List (Nat × List Nat)) (total : Nat) : List Nat :=
  ((List.range total).map (fun i => (rc.lookup i).getD [])).flatten

/-- Result of `_handle_transfer_complete`: the new receiver state, the
`content` of the returned system notification, and the bytes left at the
transfer's destination path (`none`: nothing, the file was removed or
never assembled). -/
structure CompleteOut where
  st : FTRecvState
  content : String
  fileOnDisk : Option (List Nat)
deriving DecidableEq

/-- `_handle_transfer_complete` (`file_transfer.py` lines 449-518).
Unknown transfer: notify and stop.  Missing chunks: request them
(`_request_missing_chunks`) and notify without assembling.  Otherwise
assemble the destination file, verify its MD5 against the advertised
hash — deleting the file on mismatch — and on success move the transfer
from `ongoing_transfers` to `completed_transfers` with status
`"completed"`.  `md5` is the digest function `_calculate_file_hash`
computes with `hashlib.md5`, abstracted over the assembled bytes. -/
def handleTransferComplete (md5 : List Nat → String) (st : FTRecvState)
    (tid : String) : CompleteOut :=
  match st.ongoing.lookup tid with
  | none => ⟨st, "Received file transfer completion for unknown transfer", none⟩
  | some t =>
    if t.received_chunks.length ≠ t.total_chunks then
      let missing := (List.range t.total_chunks).filter
        (fun i => (t.received_chunks.lookup i).isNone)
      ⟨st,
        if missing.isEmpty then
          "File transfer incomplete: Missing " ++
            toString (t.total_chunks - t.received_chunks.length) ++
            " chunks. Requesting missing data..."
        else
          "Transfer stalled. Requesting " ++ toString missing.length ++
            " missing chunks...",
        none⟩
    else
      let assembled := assembleChunks t.received_chunks t.total_chunks
      if md5 assembled ≠ t.file_hash then
        ⟨st, "File transfer failed: Hash verification failed", none⟩
      else
        ⟨⟨dictRemove tid st.ongoing,
          dictInsert tid { t with status := "completed" } st.completed⟩,
          "File received successfully: " ++ baseName t.file_path,
          some assembled⟩

/-! ### Helpers for reasoning about the decimal rendering inside
`transferId` (`f"{int(time.time())}_..."` stringifies through `Nat.repr`). -/

/-- Most-significant-first decimal digit characters of `n`; the recursion
mirrors `Nat.toDigitsCore` without its fuel. -/
def natDigits (n : Nat) : List Char :=
  if n < 10 then [Nat.digitChar n]
  else natDigits (n / 10) ++ [Nat.digitChar (n % 10)]
termination_by n
decreasing_by omega

/-- Numeric value of a decimal digit character (partial inverse of
`Nat.digitChar` on `0..9`). -/
def digitVal (c : Char) : Nat :=
  if c = '0' then 0 else if c = '1' then 1 else if c = '2' then 2
  else if c = '3' then 3 else if c = '4' then 4 else if c = '5' then 5
  else if c = '6' then 6 else if c = '7' then 7 else if c = '8' then 8 else 9

/-- Value of a most-significant-first decimal digit string. -/
def digitsVal (l : List Char) : Nat :=
  l.foldl (fun acc c => acc * 10 + digitVal c) 0

/-! ### Shared lemmas -/

/-- After `del d[k]`, looking up `k` yields nothing. -/
theorem lookup_dictRemove_self {α : Type} (k : String) (l : List (String × α)) :
    (dictRemove k l).lookup k = none := by
  unfold dictRemove
  induction l with
  | nil => rfl
  | cons kv rest ih =>
    obtain ⟨k1, v1⟩ := kv
    rw [List.filter_cons]
    by_cases h : k1 = k
    · simpa [h] using ih
    · have hbeq : (k == k1) = false := beq_eq_false_iff_ne.mpr (Ne.symm h)
      simpa [h, List.lookup, hbeq] using ih

/-- After `d[k] = v`, looking up `k` yields `v`. -/
theorem lookup_dictInsert_self {α : Type} (k : String) (v : α)
    (l : List (String × α)) : (dictInsert k v l).lookup k = some v := by
  unfold dictInsert
  induction l with
  | nil => simp [List.lookup]
  | cons kv rest ih =>
    obtain ⟨k1, v1⟩ := kv
    rw [List.filter_cons]
    by_cases h : k1 = k
    · simpa [h] using ih
    · have hbeq : (k == k1) = false := beq_eq_false_iff_ne.mpr (Ne.symm h)
      simpa [h, List.lookup, hbeq] using ih

/-- `_add_to_history` keeps the history within the 100-entry cap. -/
theorem addToHistory_length_le (h : List Envelope) (m : Envelope)
    (hle : h.length ≤ 100) : (addToHistory h m).length ≤ 100 := by
  simp only [addToHistory]
  split <;> simp_all

/-! ### Claims -/

/-- C8: `connect_to_peer` with host `"localhost"` or `"127.0.0.1"` and a
port equal to the node's own listen port returns false and does not open
a connection (the peer set is unchanged). -/
theorem claim_C8 (selfPort : Nat) (peers : List Addr) (dialOk : Bool)
    (host : String) (port : Nat)
    (hhost : host = "localhost" ∨ host = "127.0.0.1") (hport : port = selfPort) :
    chatConnectToPeer selfPort peers dialOk host port = (peers, false) := by
  unfold chatConnectToPeer
  rw [if_pos ⟨hhost, hport⟩]

/-- Witness for C8 at host `"localhost"`, port 5000 = listen port. -/
theorem claim_C8_witness :
    ("localhost" = "localhost" ∨ "localhost" = "127.0.0.1") ∧ 5000 = 5000 ∧
      chatConnectToPeer 5000 [("p", 6000)] true "localhost" 5000 =
        ([("p", 6000)], false) :=
  ⟨Or.inl rfl, rfl,
    claim_C8 5000 [("p", 6000)] true "localhost" 5000 (Or.inl rfl) rfl⟩

/-- C9: the message history is a bounded FIFO with cap 100: any sequence of
appends starting from the empty history stays within 100 entries, a single
append preserves the bound, at the cap the oldest entry is evicted first,
below the cap the append is plain, and every `_handle_message` dispatch
preserves the bound. -/
theorem claim_C9 (msgs : List Envelope) (h : List Envelope) (m : Envelope) :
    (msgs.foldl addToHistory []).length ≤ 100 ∧
    (h.length ≤ 100 → (addToHistory h m).length ≤ 100) ∧
    (h.length = 100 → addToHistory h m = h.drop 1 ++ [m]) ∧
    (h.length < 100 → addToHistory h m = h ++ [m]) ∧
    (∀ st addr e now, st.history.length ≤ 100 →
      (handleMessage st addr e now).st.history.length ≤ 100) := by
  refine ⟨?_, addToHistory_length_le h m, ?_, ?_, ?_⟩
  · have aux : ∀ (l : List Envelope) (acc : List Envelope), acc.length ≤ 100 →
        (l.foldl addToHistory acc).length ≤ 100 := by
      intro l
      induction l with
      | nil => intro acc hacc; simpa using hacc
      | cons x xs ih =>
        intro acc hacc
        exact ih _ (addToHistory_length_le acc x hacc)
    exact aux msgs [] (by simp)
  · intro h100
    unfold addToHistory
    rw [if_pos (by simp [h100])]
    have hne : h ≠ [] := by
      intro hnil; rw [hnil] at h100; simp at h100
    rw [List.drop_append_of_le_length (by omega)]
  · intro hlt
    unfold addToHistory
    rw [if_neg (by simp; omega)]
  · intro st addr e now hst
    unfold handleMessage
    split
    · exact hst
    split
    · exact addToHistory_length_le _ _ hst
    split
    · simpa [handlePresenceUpdate] using hst
    split
    · exact addToHistory_length_le _ _ hst
    split
    · exact hst
    · exact hst

/-- Witness for C9 applied at a singleton history and a chat envelope. -/
theorem claim_C9_witness :
    ([chatMsg "u" "hi" "1"] : List Envelope).length ≤ 100 ∧
      (addToHistory [chatMsg "u" "hi" "1"] (systemMsg "s" "2")).length ≤ 100 :=
  ⟨by decide,
    (claim_C9 [] [chatMsg "u" "hi" "1"] (systemMsg "s" "2")).2.1 (by decide)⟩

/-- C4 counterexample: the transport-level dispatch of `_handle_peer` hands
a heartbeat envelope to `message_callback` (the callback passed to
`start`), contradicting the claim that the callback is never invoked with
a heartbeat. -/
theorem claim_C4_counterexample :
    (processInbound [] [] (heartbeatMsg "5.0")).2 = [heartbeatMsg "5.0"] ∧
      (heartbeatMsg "5.0").etype = "heartbeat" := by
  exact ⟨by decide, by decide⟩

/-- C4 (amended): `network.py` performs no type filtering, so `on_message`
IS invoked with every non-duplicate envelope, heartbeats included; the
heartbeat filtering happens one layer up, in `chat.py`'s
`_handle_message`, which returns immediately on a heartbeat, leaving the
chat state untouched and invoking no application callback. -/
theorem claim_C4_amended (processed : List String) (cb : List Envelope)
    (e : Envelope) (st : ChatState) (addr : Addr) (now : String)
    (hfp : fingerprint e ∉ processed) (he : e.etype = "heartbeat") :
    (processInbound processed cb e).2 = cb ++ [e] ∧
      handleMessage st addr e now = ⟨st, [], none⟩ := by
  constructor
  · simp [processInbound, hfp]
  · simp [handleMessage, he]

/-- Witness for C4 (amended) at a concrete heartbeat envelope. -/
theorem claim_C4_witness :
    fingerprint (heartbeatMsg "5.0") ∉ ([] : List String) ∧
      (heartbeatMsg "5.0").etype = "heartbeat" ∧
      ((processInbound [] [] (heartbeatMsg "5.0")).2 = [] ++ [heartbeatMsg "5.0"] ∧
        handleMessage ⟨[], []⟩ ("h", 1) (heartbeatMsg "5.0") "0" =
          ⟨⟨[], []⟩, [], none⟩) :=
  ⟨by decide, by decide,
    claim_C4_amended [] [] (heartbeatMsg "5.0") ⟨[], []⟩ ("h", 1) "0"
      (by decide) (by decide)⟩

/-- C5 counterexample: every envelope the source builds of the four listed
types carries a `timestamp`, so none of them produces the fingerprint
`"None_None"`: a heartbeat with timestamp `5.0` produces `"5.0_None"`, and
a `file_transfer_complete` even carries a sender. -/
theorem claim_C5_counterexample :
    fingerprint (heartbeatMsg "5.0") = "5.0_None" ∧
      fingerprint (fileChunkAckMsg "t" 0 "5.0") = "5.0_None" ∧
      fingerprint (fileChunkRequestMsg "t" [1] "5.0") = "5.0_None" ∧
      fingerprint (fileTransferCompleteMsg "t" "alice" "5.0") = "5.0_alice" ∧
      ("5.0_None" : String) ≠ "None_None" ∧ ("5.0_alice" : String) ≠ "None_None" := by
  refine ⟨by decide, by decide, by decide, by decide, by decide, by decide⟩

/-- C5 (amended): heartbeat, `file_chunk_ack` and `file_chunk_request`
envelopes fingerprint as `"{timestamp}_None"` and `file_transfer_complete`
as `"{timestamp}_{sender}"` — never the constant `"None_None"` — so an
inbound envelope of these types is suppressed iff an earlier processed
envelope had the same timestamp (and sender), not unconditionally after
the first one. -/
theorem claim_C5_amended (ts tid u : String) (i : Nat) (cs : List Nat)
    (processed : List String) (cb : List Envelope) (e : Envelope) :
    fingerprint (heartbeatMsg ts) = ts ++ "_None" ∧
    fingerprint (fileChunkAckMsg tid i ts) = ts ++ "_None" ∧
    fingerprint (fileChunkRequestMsg tid cs ts) = ts ++ "_None" ∧
    fingerprint (fileTransferCompleteMsg tid u ts) = ts ++ "_" ++ u ∧
    (fingerprint e ∈ processed → processInbound processed cb e = (processed, cb)) ∧
    (fingerprint e ∉ processed → (processInbound processed cb e).2 = cb ++ [e]) := by
  refine ⟨?_, ?_, ?_, ?_, ?_, ?_⟩
  · show ts ++ "_" ++ "None" = ts ++ "_None"
    rw [String.append_assoc]
    exact congrArg (fun s => ts ++ s) (by decide)
  · show ts ++ "_" ++ "None" = ts ++ "_None"
    rw [String.append_assoc]
    exact congrArg (fun s => ts ++ s) (by decide)
  · show ts ++ "_" ++ "None" = ts ++ "_None"
    rw [String.append_assoc]
    exact congrArg (fun s => ts ++ s) (by decide)
  · rfl
  · intro hmem; simp [processInbound, hmem]
  · intro hmem; simp [processInbound, hmem]

/-- Witness for C5 (amended): an envelope repeating a processed timestamp
is suppressed; a fresh one is dispatched. -/
theorem claim_C5_witness :
    fingerprint (heartbeatMsg "1") ∈ ["1_None"] ∧
      processInbound ["1_None"] [] (heartbeatMsg "1") = (["1_None"], []) :=
  ⟨by decide,
    (claim_C5_amended "1" "t" "u" 0 [] ["1_None"] [] (heartbeatMsg "1")).2.2.2.2.1
      (by decide)⟩

/-- C2 counterexample: on a hash mismatch `_handle_transfer_complete`
deletes the assembled file and emits the "Hash verification failed"
notification, but the transfer is NOT marked failed: it stays in
`ongoing_transfers` with its status still `"receiving"`. -/
theorem claim_C2_counterexample :
    (handleTransferComplete (fun _ => "deadbeef")
        ⟨[("t", ⟨"downloads/f", 1, [(0, [7])], 1, 4096, "0", "s", "receiving", none⟩)], []⟩
        "t") =
      ⟨⟨[("t", ⟨"downloads/f", 1, [(0, [7])], 1, 4096, "0", "s", "receiving", none⟩)], []⟩,
        "File transfer failed: Hash verification failed", none⟩ ∧
      ("receiving" : String) ≠ "failed" := by
  exact ⟨by decide, by decide⟩

/-- C2 (amended): when all chunks are present, a hash mismatch deletes the
destination file and emits the "Hash verification failed" notification,
but leaves the transfer in `ongoing_transfers` with its status unchanged
(it is never marked failed); on a hash match the transfer is moved into
`completed_transfers` with status `"completed"` and removed from the
ongoing set. -/
theorem claim_C2_amended (md5 : List Nat → String) (st : FTRecvState)
    (tid : String) (t : IncomingTransfer)
    (hlk : st.ongoing.lookup tid = some t)
    (hall : t.received_chunks.length = t.total_chunks) :
    (md5 (assembleChunks t.received_chunks t.total_chunks) ≠ t.file_hash →
      handleTransferComplete md5 st tid =
        ⟨st, "File transfer failed: Hash verification failed", none⟩) ∧
    (md5 (assembleChunks t.received_chunks t.total_chunks) = t.file_hash →
      handleTransferComplete md5 st tid =
        ⟨⟨dictRemove tid st.ongoing,
          dictInsert tid { t with status := "completed" } st.completed⟩,
          "File received successfully: " ++ baseName t.file_path,
          some (assembleChunks t.received_chunks t.total_chunks)⟩ ∧
      (dictRemove tid st.ongoing).lookup tid = none ∧
      (dictInsert tid { t with status := "completed" } st.completed).lookup tid =
        some { t with status := "completed" }) := by
  constructor
  · intro hne
    unfold handleTransferComplete
    rw [hlk]
    simp only [hall, ne_eq, not_true_eq_false, if_false, ite_not]
    rw [if_neg (by simpa using hne)]
  · intro heq
    refine ⟨?_, lookup_dictRemove_self tid st.ongoing,
      lookup_dictInsert_self tid _ st.completed⟩
    unfold handleTransferComplete
    rw [hlk]
    simp only [hall, ne_eq, not_true_eq_false, if_false, ite_not]
    rw [if_pos (by simpa using heq)]

/-- Witness for C2 (amended) at a one-chunk transfer whose hash matches. -/
theorem claim_C2_witness :
    (⟨[("t", ⟨"downloads/f", 1, [(0, [7])], 1, 4096, "h", "s", "receiving", none⟩)],
        []⟩ : FTRecvState).ongoing.lookup "t" =
      some ⟨"downloads/f", 1, [(0, [7])], 1, 4096, "h", "s", "receiving", none⟩ ∧
    (handleTransferComplete (fun _ => "h")
        ⟨[("t", ⟨"downloads/f", 1, [(0, [7])], 1, 4096, "h", "s", "receiving", none⟩)], []⟩
        "t") =
      ⟨⟨dictRemove "t"
          [("t", ⟨"downloads/f", 1, [(0, [7])], 1, 4096, "h", "s", "receiving", none⟩)],
        dictInsert "t"
          { (⟨"downloads/f", 1, [(0, [7])], 1, 4096, "h", "s", "receiving", none⟩ :
              IncomingTransfer) with status := "completed" } []⟩,
        "File received successfully: " ++
          baseName (⟨"downloads/f", 1, [(0, [7])], 1, 4096, "h", "s", "receiving",
            none⟩ : IncomingTransfer).file_path,
        some (assembleChunks [(0, [7])] 1)⟩ :=
  ⟨by decide,
    (((claim_C2_amended (fun _ => "h")
      ⟨[("t", ⟨"downloads/f", 1, [(0, [7])], 1, 4096, "h", "s", "receiving", none⟩)], []⟩
      "t" ⟨"downloads/f", 1, [(0, [7])], 1, 4096, "h", "s", "receiving", none⟩
      (by decide) (by decide)).2) rfl).1⟩

/-- C6: `send_file` returns false when the file does not exist; when the
metadata broadcast returns false it deletes the just-created sender record
(leaving no entry under that `transfer_id`) and returns false; otherwise
it returns true with the record registered. -/
theorem claim_C6 (fs : String → Option (List Nat)) (username : String)
    (now : Nat) (users peers : List Addr) (ok : Addr → Bool)
    (sending : List (String × SendingTransfer)) (path : String) :
    (fs path = none →
      sendFile fs username now users peers ok sending path = (sending, false)) ∧
    (∀ bytes, fs path = some bytes →
      ((broadcastMessage users peers ok).2.1 = false →
        (sendFile fs username now users peers ok sending path).2 = false ∧
        (sendFile fs username now users peers ok sending path).1.lookup
          (transferId now username (baseName path)) = none) ∧
      ((broadcastMessage users peers ok).2.1 = true →
        (sendFile fs username now users peers ok sending path).2 = true ∧
        (sendFile fs username now users peers ok sending path).1.lookup
          (transferId now username (baseName path)) =
          some ⟨path, bytes.length, totalChunks bytes.length, "sending", []⟩)) := by
  constructor
  · intro h
    unfold sendFile
    rw [h]
  · intro bytes hb
    constructor
    · intro hbf
      unfold sendFile
      rw [hb]
      simp only [hbf, Bool.false_eq_true, if_false]
      exact ⟨trivial, lookup_dictRemove_self _ _⟩
    · intro hbt
      unfold sendFile
      rw [hb]
      simp only [hbt, if_true]
      exact ⟨trivial, lookup_dictInsert_self _ _ _⟩

/-- Witness for C6: a one-byte file sent while one presence-known,
connected peer exists. -/
theorem claim_C6_witness :
    ((fun _ => some [1]) : String → Option (List Nat)) "f" = some [1] ∧
      (broadcastMessage [("h", 1)] [("h", 1)] (fun _ => true)).2.1 = true ∧
      (sendFile (fun _ => some [1]) "u" 5 [("h", 1)] [("h", 1)] (fun _ => true)
          [] "f").2 = true ∧
      (sendFile (fun _ => some [1]) "u" 5 [("h", 1)] [("h", 1)] (fun _ => true)
          [] "f").1.lookup (transferId 5 "u" (baseName "f")) =
        some ⟨"f", 1, totalChunks 1, "sending", []⟩ := by
  refine ⟨rfl, by decide, ?_⟩
  have h := ((claim_C6 (fun _ => some [1]) "u" 5 [("h", 1)] [("h", 1)]
    (fun _ => true) [] "f").2 [1] rfl).2 (by decide)
  simpa using h

/-- C10: for an existing zero-byte file `send_file` computes
`total_chunks = 0` and registers the record; the chunk loop emits no
`file_chunk` envelopes; the ack-wait loop's guard is immediately false, so
`file_transfer_complete` is broadcast without waiting; and a receiver that
registered the metadata assembles an empty destination file whose MD5
matches the advertised hash, moving the transfer to `completed_transfers`
with status `"completed"`. -/
theorem claim_C10 :
    totalChunks 0 = 0 ∧
    (∀ tid u ts, chunkEnvelopes [] tid u ts = []) ∧
    ackWaitNeeded [] 0 = false ∧
    (∀ username path, ∀ now : Nat,
      sendFile (fun _ => some []) username now [("h", 1)] [("h", 1)]
          (fun _ => true) [] path =
        (dictInsert (transferId now username (baseName path))
          ⟨path, 0, totalChunks 0, "sending", []⟩ [], true)) ∧
    (∀ (md5 : List Nat → String) savePath tmpDir tid fname u ts,
      handleTransferComplete md5
          (handleFileMetadata savePath tmpDir
            (fileMetadataMsg tid fname 0 chunkSize (totalChunks 0) (md5 []) u ts)
            ⟨[], []⟩)
          tid =
        ⟨⟨[], [(tid, ⟨savePath, 0, [], 0, chunkSize, md5 [], u, "completed", none⟩)]⟩,
          "File received successfully: " ++ baseName savePath, some []⟩) := by
  refine ⟨by decide, fun tid u ts => rfl, by decide, fun username path now => rfl,
    fun md5 savePath tmpDir tid fname u ts => ?_⟩
  have hmeta : handleFileMetadata savePath tmpDir
      (fileMetadataMsg tid fname 0 chunkSize (totalChunks 0) (md5 []) u ts)
      ⟨[], []⟩ =
      ⟨[(tid, ⟨savePath, 0, [], 0, chunkSize, md5 [], u, "receiving", none⟩)], []⟩ := rfl
  rw [hmeta]
  unfold handleTransferComplete
  have hlk : (⟨[(tid, ⟨savePath, 0, [], 0, chunkSize, md5 [], u, "receiving",
      none⟩)], []⟩ : FTRecvState).ongoing.lookup tid =
      some ⟨savePath, 0, [], 0, chunkSize, md5 [], u, "receiving", none⟩ := by
    exact lookup_dictInsert_self tid
      (⟨savePath, 0, [], 0, chunkSize, md5 [], u, "receiving", none⟩ :
        IncomingTransfer) []
  rw [hlk]
  simp only [ne_eq, List.length_nil, not_true_eq_false, if_false, ite_not]
  have ha : assembleChunks [] 0 = [] := rfl
  rw [ha, if_pos rfl]
  simp [dictRemove, dictInsert]

/-- The broadcast loop delivers to exactly the listed addresses that are in
the peer set and whose socket write succeeds, and reports success iff at
least one delivery happened (given the address list has no duplicates, as
dict keys never do). -/
theorem broadcastLoop_spec (ok : Addr → Bool) :
    ∀ us : List Addr, us.Nodup → ∀ (peers : List Addr) (succ : Bool) (d : List Addr),
      (broadcastLoop ok us peers succ d).2.1 =
        (succ || !(us.filter (fun a => decide (a ∈ peers) && ok a)).isEmpty) ∧
      (broadcastLoop ok us peers succ d).2.2 =
        d ++ us.filter (fun a => decide (a ∈ peers) && ok a) := by
  intro us
  induction us with
  | nil => intro _ peers succ d; simp [broadcastLoop]
  | cons a rest ih =>
    intro hnd peers succ d
    have hna : a ∉ rest := (List.nodup_cons.mp hnd).1
    have hnd' : rest.Nodup := (List.nodup_cons.mp hnd).2
    by_cases hmem : a ∈ peers
    · cases hok : ok a with
      | true =>
        have hstep : broadcastLoop ok (a :: rest) peers succ d =
            broadcastLoop ok rest peers (succ || true) (d ++ [a]) := by
          simp [broadcastLoop, sendToPeer, hmem, hok]
        rw [hstep]
        have h := ih hnd' peers (succ || true) (d ++ [a])
        refine ⟨?_, ?_⟩
        · rw [h.1]
          simp [List.filter_cons, hmem, hok]
        · rw [h.2]
          simp [List.filter_cons, hmem, hok]
      | false =>
        have hstep : broadcastLoop ok (a :: rest) peers succ d =
            broadcastLoop ok rest (peers.erase a) (succ || false) d := by
          simp [broadcastLoop, sendToPeer, hmem, hok]
        rw [hstep]
        have hfilter : rest.filter (fun b => decide (b ∈ peers.erase a) && ok b) =
            rest.filter (fun b => decide (b ∈ peers) && ok b) := by
          apply List.filter_congr
          intro b hb
          have hne : b ≠ a := fun hba => hna (hba ▸ hb)
          simp [List.mem_erase_of_ne hne]
        have h := ih hnd' (peers.erase a) (succ || false) d
        refine ⟨?_, ?_⟩
        · rw [h.1, hfilter]
          simp [List.filter_cons, hmem, hok]
        · rw [h.2, hfilter]
          simp [List.filter_cons, hmem, hok]
    · have hstep : broadcastLoop ok (a :: rest) peers succ d =
          broadcastLoop ok rest peers (succ || false) d := by
        simp [broadcastLoop, sendToPeer, hmem]
      rw [hstep]
      have h := ih hnd' peers (succ || false) d
      refine ⟨?_, ?_⟩
      · rw [h.1]
        simp [List.filter_cons, hmem]
      · rw [h.2]
        simp [List.filter_cons, hmem]

/-- C3 counterexample: with one open TCP peer connection but an empty
`users` table, `_broadcast_message` hands the envelope to nobody and
returns false — the envelope is not handed to the connected peer's
socket, contradicting the claim that broadcast iterates the Transport's
peer set. -/
theorem claim_C3_counterexample :
    broadcastMessage [] [("127.0.0.1", 5001)] (fun _ => true) =
      ([("127.0.0.1", 5001)], false, []) ∧
      (("127.0.0.1", 5001) : Addr) ∈ ([("127.0.0.1", 5001)] : List Addr) := by
  exact ⟨by decide, by decide⟩

/-- C3 (amended): `_broadcast_message` iterates the chat layer's `users`
table (the presence map), not the Transport's peer set: the envelope is
handed to exactly those user addresses that are also currently in the
peer set and whose socket write succeeds (per-peer failures tolerated),
and the call reports success iff at least one such delivery happened.  A
connected TCP peer absent from `users` receives nothing. -/
theorem claim_C3_amended (users peers : List Addr) (ok : Addr → Bool)
    (hnd : users.Nodup) :
    (broadcastMessage users peers ok).2.2 =
      users.filter (fun a => decide (a ∈ peers) && ok a) ∧
    ((broadcastMessage users peers ok).2.1 = true ↔
      users.filter (fun a => decide (a ∈ peers) && ok a) ≠ []) := by
  by_cases hu : users.isEmpty
  · have hnil : users = [] := by
      cases users with
      | nil => rfl
      | cons a l => simp [List.isEmpty] at hu
    subst hnil
    simp [broadcastMessage]
  · have h := broadcastLoop_spec ok users hnd peers false []
    constructor
    · rw [broadcastMessage, if_neg (by simp [hu]), h.2]
      simp
    · rw [broadcastMessage, if_neg (by simp [hu]), h.1]
      simp [List.isEmpty_iff]

/-- Witness for C3 (amended): one user address that is also a connected
peer receives the broadcast and the call succeeds. -/
theorem claim_C3_witness :
    ([("a", 1)] : List Addr).Nodup ∧
      ((broadcastMessage [("a", 1)] [("a", 1)] (fun _ => true)).2.2 =
        ([("a", 1)] : List Addr).filter
          (fun a => decide (a ∈ ([("a", 1)] : List Addr)) && (fun _ => true) a) ∧
      ((broadcastMessage [("a", 1)] [("a", 1)] (fun _ => true)).2.1 = true ↔
        ([("a", 1)] : List Addr).filter
          (fun a => decide (a ∈ ([("a", 1)] : List Addr)) && (fun _ => true) a) ≠ [])) :=
  ⟨by decide, claim_C3_amended [("a", 1)] [("a", 1)] (fun _ => true) (by decide)⟩

/-- Alphabet characters decode back to their 6-bit value. -/
theorem b64value_b64char : ∀ i, i < 64 → b64value (b64char i) = i := by decide

/-- No alphabet character is the padding character. -/
theorem b64char_ne_pad : ∀ i, i < 64 → b64char i ≠ '=' := by decide

/-- `(p * b + q) / b = p` when `q < b`. -/
theorem mul_add_div_eq (b p q : Nat) (hb : 0 < b) (hq : q < b) :
    (p * b + q) / b = p := by
  rw [Nat.mul_comm, Nat.mul_add_div hb, Nat.div_eq_of_lt hq, Nat.add_zero]

/-- `(p * b + q) % b = q` when `q < b`. -/
theorem mul_add_mod_eq (b p q : Nat) (hq : q < b) : (p * b + q) % b = q := by
  rw [Nat.mul_comm p b, Nat.mul_add_mod]
  exact Nat.mod_eq_of_lt hq

/-- Base64 decoding inverts encoding on byte strings. -/
theorem b64_roundtrip : ∀ l : List Nat, (∀ x ∈ l, x < 256) →
    b64decode (b64encode l) = l
  | [], _ => rfl
  | [a], h => by
    have ha : a < 256 := h a (by simp)
    simp only [b64encode, b64decode]
    rw [if_pos trivial]
    rw [b64value_b64char (a / 4) (by omega), b64value_b64char (a % 4 * 16) (by omega)]
    rw [Nat.mul_div_cancel (a % 4) (by norm_num)]
    have e1 : a / 4 * 4 + a % 4 = a := by omega
    rw [e1]
  | [a, b], h => by
    have ha : a < 256 := h a (by simp)
    have hb : b < 256 := h b (by simp)
    simp only [b64encode, b64decode]
    rw [if_neg (b64char_ne_pad (b % 16 * 4) (by omega)), if_pos trivial]
    rw [b64value_b64char (a / 4) (by omega),
      b64value_b64char (a % 4 * 16 + b / 16) (by omega),
      b64value_b64char (b % 16 * 4) (by omega)]
    rw [mul_add_div_eq 16 (a % 4) (b / 16) (by norm_num) (by omega),
      mul_add_mod_eq 16 (a % 4) (b / 16) (by omega),
      Nat.mul_div_cancel (b % 16) (by norm_num)]
    have e1 : a / 4 * 4 + a % 4 = a := by omega
    have e2 : b / 16 * 16 + b % 16 = b := by omega
    rw [e1, e2]
  | a :: b :: c :: d :: rest, h => by
    have ha : a < 256 := h a (by simp)
    have hb : b < 256 := h b (by simp)
    have hc : c < 256 := h c (by simp)
    have hrest : ∀ x ∈ d :: rest, x < 256 := fun x hx => h x (by simp [hx])
    have IH := b64_roundtrip (d :: rest) hrest
    simp only [b64encode, b64decode]
    rw [if_neg (b64char_ne_pad (b % 16 * 4 + c / 64) (by omega)),
      if_neg (b64char_ne_pad (c % 64) (by omega))]
    rw [b64value_b64char (a / 4) (by omega),
      b64value_b64char (a % 4 * 16 + b / 16) (by omega),
      b64value_b64char (b % 16 * 4 + c / 64) (by omega),
      b64value_b64char (c % 64) (by omega)]
    rw [mul_add_div_eq 16 (a % 4) (b / 16) (by norm_num) (by omega),
      mul_add_mod_eq 16 (a % 4) (b / 16) (by omega),
      mul_add_div_eq 4 (b % 16) (c / 64) (by norm_num) (by omega),
      mul_add_mod_eq 4 (b % 16) (c / 64) (by omega)]
    rw [IH]
    have e1 : a / 4 * 4 + a % 4 = a := by omega
    have e2 : b / 16 * 16 + b % 16 = b := by omega
    have e3 : c / 64 * 64 + c % 64 = c := by omega
    rw [e1, e2, e3]
  | [a, b, c], h => by
    have ha : a < 256 := h a (by simp)
    have hb : b < 256 := h b (by simp)
    have hc : c < 256 := h c (by simp)
    simp only [b64encode, b64decode]
    rw [if_neg (b64char_ne_pad (b % 16 * 4 + c / 64) (by omega)),
      if_neg (b64char_ne_pad (c % 64) (by omega))]
    rw [b64value_b64char (a / 4) (by omega),
      b64value_b64char (a % 4 * 16 + b / 16) (by omega),
      b64value_b64char (b % 16 * 4 + c / 64) (by omega),
      b64value_b64char (c % 64) (by omega)]
    rw [mul_add_div_eq 16 (a % 4) (b / 16) (by norm_num) (by omega),
      mul_add_mod_eq 16 (a % 4) (b / 16) (by omega),
      mul_add_div_eq 4 (b % 16) (c / 64) (by norm_num) (by omega),
      mul_add_mod_eq 4 (b % 16) (c / 64) (by omega)]
    have e1 : a / 4 * 4 + a % 4 = a := by omega
    have e2 : b / 16 * 16 + b % 16 = b := by omega
    have e3 : c / 64 * 64 + c % 64 = c := by omega
    rw [e1, e2, e3]

/-- Concatenating the `ceil(len / cs)` successive `cs`-sized slices of a
list reproduces the list. -/
theorem range_map_chunk_flatten (cs : Nat) (hcs : 0 < cs) (B : List Nat) :
    ((List.range ((B.length + cs - 1) / cs)).map
      (fun i => (B.drop (i * cs)).take cs)).flatten = B := by
  by_cases hB : B = []
  · subst hB
    have h0 : (0 + cs - 1) / cs = 0 := Nat.div_eq_of_lt (by omega)
    simp [h0]
  · have hlen : 0 < B.length := List.length_pos.mpr hB
    have hN : (B.length + cs - 1) / cs = (B.length - 1) / cs + 1 := by
      have h1 : B.length + cs - 1 = (B.length - 1) + 1 * cs := by omega
      rw [h1, Nat.add_mul_div_right _ _ hcs]
    rw [hN, List.range_succ_eq_map]
    have hN2 : ((B.drop cs).length + cs - 1) / cs = (B.length - 1) / cs := by
      rw [List.length_drop]
      rcases le_or_lt cs B.length with hle | hlt
      · congr 1
        omega
      · have h0 : B.length - cs = 0 := by omega
        rw [h0]
        rw [Nat.div_eq_of_lt (by omega), Nat.div_eq_of_lt (by omega)]
    have IH := range_map_chunk_flatten cs hcs (B.drop cs)
    rw [hN2] at IH
    have hmap : (List.range ((B.length - 1) / cs)).map
        ((fun i => (B.drop (i * cs)).take cs) ∘ Nat.succ) =
        (List.range ((B.length - 1) / cs)).map
          (fun i => ((B.drop cs).drop (i * cs)).take cs) := by
      apply List.map_congr_left
      intro i _
      show (B.drop (Nat.succ i * cs)).take cs = ((B.drop cs).drop (i * cs)).take cs
      rw [List.drop_drop]
      congr 2
      rw [Nat.succ_mul, Nat.add_comm]
    simp only [List.map_cons, List.map_map, List.flatten_cons, Nat.zero_mul,
      List.drop_zero, hmap, IH]
    exact List.take_append_drop cs B
termination_by B.length
decreasing_by
  simp only [List.length_drop]
  omega

/-- C1: if the receiver holds, for every index below `total_chunks`, the
base64-decode of the sender's encoded chunk, then the file assembled by
`_handle_transfer_complete` is byte-for-byte the sender's original file,
and hence its MD5 equals the advertised `file_hash` (which `send_file`
computed from the original). -/
theorem claim_C1 (B : List Nat) (hB : ∀ x ∈ B, x < 256)
    (md5 : List Nat → String) (rc : List (Nat × List Nat))
    (hall : ∀ i, i < totalChunks B.length →
      rc.lookup i = some (b64decode (b64encode (fileChunk B i)))) :
    assembleChunks rc (totalChunks B.length) = B ∧
    md5 (assembleChunks rc (totalChunks B.length)) = md5 B := by
  have hmain : assembleChunks rc (totalChunks B.length) = B := by
    unfold assembleChunks
    have hmap : (List.range (totalChunks B.length)).map
        (fun i => (rc.lookup i).getD []) =
        (List.range (totalChunks B.length)).map (fun i => fileChunk B i) := by
      apply List.map_congr_left
      intro i hi
      rw [hall i (List.mem_range.mp hi)]
      show b64decode (b64encode (fileChunk B i)) = fileChunk B i
      apply b64_roundtrip
      intro x hx
      exact hB x (List.drop_subset _ _ (List.take_subset _ _ hx))
    rw [hmap]
    exact range_map_chunk_flatten chunkSize (by decide) B
  exact ⟨hmain, by rw [hmain]⟩

/-- Witness for C1 on the 3-byte file `[1, 2, 3]`. -/
theorem claim_C1_witness :
    (∀ x ∈ ([1, 2, 3] : List Nat), x < 256) ∧
      assembleChunks [(0, b64decode (b64encode (fileChunk [1, 2, 3] 0)))]
        (totalChunks 3) = [1, 2, 3] :=
  ⟨by decide,
    (claim_C1 [1, 2, 3] (by decide) (fun _ => "")
      [(0, b64decode (b64encode (fileChunk [1, 2, 3] 0)))] (by decide)).1⟩

/-- Decimal digit characters are not the underscore. -/
theorem digitChar_lt_ne_underscore : ∀ k, k < 10 → Nat.digitChar k ≠ '_' := by decide

/-- `digitVal` inverts `Nat.digitChar` on decimal digits. -/
theorem digitVal_digitChar : ∀ k, k < 10 → digitVal (Nat.digitChar k) = k := by decide

/-- No character of the decimal rendering is an underscore. -/
theorem natDigits_ne_underscore (n : Nat) : ∀ c ∈ natDigits n, c ≠ '_' := by
  by_cases h : n < 10
  · rw [natDigits, if_pos h]
    intro c hc
    have hc' : c = Nat.digitChar n := by simpa using hc
    rw [hc']
    exact digitChar_lt_ne_underscore n h
  · rw [natDigits, if_neg h]
    intro c hc
    rcases List.mem_append.mp hc with h1 | h2
    · exact natDigits_ne_underscore (n / 10) c h1
    · have hc' : c = Nat.digitChar (n % 10) := by simpa using h2
      rw [hc']
      exact digitChar_lt_ne_underscore (n % 10) (by omega)
termination_by n
decreasing_by omega

/-- Appending one digit multiplies the value by ten. -/
theorem digitsVal_append_singleton (l : List Char) (c : Char) :
    digitsVal (l ++ [c]) = digitsVal l * 10 + digitVal c := by
  unfold digitsVal
  rw [List.foldl_append]
  rfl

/-- `digitsVal` recovers the number from its decimal rendering, so
`natDigits` is injective. -/
theorem digitsVal_natDigits (n : Nat) : digitsVal (natDigits n) = n := by
  by_cases h : n < 10
  · rw [natDigits, if_pos h]
    have h1 : digitsVal [Nat.digitChar n] = digitVal (Nat.digitChar n) := by
      unfold digitsVal
      simp
    rw [h1]
    exact digitVal_digitChar n h
  · rw [natDigits, if_neg h]
    rw [digitsVal_append_singleton, digitsVal_natDigits (n / 10),
      digitVal_digitChar (n % 10) (by omega)]
    omega
termination_by n
decreasing_by omega

/-- `natDigits` is injective. -/
theorem natDigits_inj {m n : Nat} (h : natDigits m = natDigits n) : m = n := by
  rw [← digitsVal_natDigits m, ← digitsVal_natDigits n, h]

/-- `Nat.toDigitsCore` with sufficient fuel computes `natDigits` and
prepends it to the accumulator. -/
theorem toDigitsCore_eq_natDigits (fuel : Nat) :
    ∀ (n : Nat) (ds : List Char), n < fuel →
      Nat.toDigitsCore 10 fuel n ds = natDigits n ++ ds := by
  induction fuel with
  | zero => intro n ds h; omega
  | succ f ih =>
    intro n ds h
    simp only [Nat.toDigitsCore]
    by_cases h10 : n / 10 = 0
    · rw [if_pos h10]
      have hn : n < 10 := by omega
      rw [natDigits, if_pos hn, Nat.mod_eq_of_lt hn]
      rfl
    · rw [if_neg h10]
      have hpos : 0 < n := by
        rcases Nat.eq_zero_or_pos n with h0 | h0
        · rw [h0] at h10
          simp at h10
        · exact h0
      have h10' : 10 ≤ n := by
        by_contra hcon
        exact h10 (Nat.div_eq_of_lt (by omega))
      have hlt : n / 10 < n := Nat.div_lt_self hpos (by norm_num)
      rw [ih (n / 10) (Nat.digitChar (n % 10) :: ds) (by omega)]
      rw [show natDigits n = natDigits (n / 10) ++ [Nat.digitChar (n % 10)] from by
        rw [natDigits, if_neg (by omega)]]
      simp

/-- `Nat.repr` renders through `natDigits`. -/
theorem repr_eq_natDigits (n : Nat) : Nat.repr n = (natDigits n).asString := by
  unfold Nat.repr Nat.toDigits
  rw [toDigitsCore_eq_natDigits (n + 1) n [] (by omega)]
  simp

/-- `toString` on `Nat` is `Nat.repr`. -/
theorem toString_nat (n : Nat) : toString n = Nat.repr n := rfl

/-- `List.asString` stores exactly the given characters. -/
theorem data_asString (l : List Char) : l.asString.data = l := rfl

/-- Splitting a string of the shape `a_u_f` where `a` and `b` are
underscore-free prefixes: equal strings force equal prefixes and equal
suffixes. -/
theorem underscore_split : ∀ (a b : List Char) (u f1 f2 : List Char),
    (∀ c ∈ a, c ≠ '_') → (∀ c ∈ b, c ≠ '_') →
    a ++ '_' :: (u ++ '_' :: f1) = b ++ '_' :: (u ++ '_' :: f2) →
    a = b ∧ f1 = f2 := by
  intro a
  induction a with
  | nil =>
    intro b u f1 f2 _ hb h
    cases b with
    | nil =>
      refine ⟨rfl, ?_⟩
      simp only [List.nil_append, List.cons.injEq, true_and] at h
      exact (List.cons.injEq .. ▸ (List.append_cancel_left h) : _ ∧ _).2
    | cons y bs =>
      exfalso
      simp only [List.nil_append, List.cons_append, List.cons.injEq] at h
      exact hb y (by simp) h.1.symm
  | cons x as ih =>
    intro b u f1 f2 ha hb h
    cases b with
    | nil =>
      exfalso
      simp only [List.nil_append, List.cons_append, List.cons.injEq] at h
      exact ha x (by simp) h.1
    | cons y bs =>
      simp only [List.cons_append, List.cons.injEq] at h
      have hrec := ih bs u f1 f2 (fun c hc => ha c (by simp [hc]))
        (fun c hc => hb c (by simp [hc])) h.2
      exact ⟨by rw [h.1, hrec.1], hrec.2⟩

/-- C7 counterexample: `transfer_id` depends only on the unix second, the
username and the file's basename, so the two distinct `send_file`
invocations for `"a/f.txt"` and `"b/f.txt"` in the same second produce the
same `transfer_id`, refuting uniqueness across the process lifetime. -/
theorem claim_C7_counterexample :
    ("a/f.txt" : String) ≠ "b/f.txt" ∧
      baseName "a/f.txt" = baseName "b/f.txt" ∧
      transferId 5 "u" (baseName "a/f.txt") = transferId 5 "u" (baseName "b/f.txt") := by
  exact ⟨by decide, by decide, by decide⟩

/-- C7 (amended): every `transfer_id` has the advertised
`"{unix_seconds}_{username}_{file_name}"` form, and — the username being
fixed within one sender process — two `send_file` invocations produce the
same `transfer_id` exactly when they fall in the same unix second and
carry the same file name; uniqueness fails for same-second, same-name
invocations. -/
theorem claim_C7_amended (n1 n2 : Nat) (u f1 f2 : String) :
    transferId n1 u f1 = toString n1 ++ "_" ++ u ++ "_" ++ f1 ∧
    (transferId n1 u f1 = transferId n2 u f2 ↔ n1 = n2 ∧ f1 = f2) := by
  refine ⟨rfl, ?_, ?_⟩
  · intro h
    have hdata : (Nat.repr n1).data ++ '_' :: (u.data ++ '_' :: f1.data) =
        (Nat.repr n2).data ++ '_' :: (u.data ++ '_' :: f2.data) := by
      have h2 := congrArg String.data h
      simpa [transferId, toString_nat, List.append_assoc] using h2
    have hrepr : ∀ n : Nat, ∀ c ∈ (Nat.repr n).data, c ≠ '_' := by
      intro n c hc
      rw [repr_eq_natDigits, data_asString] at hc
      exact natDigits_ne_underscore n c hc
    have hsplit := underscore_split (Nat.repr n1).data (Nat.repr n2).data
      u.data f1.data f2.data (hrepr n1) (hrepr n2) hdata
    constructor
    · have hr : Nat.repr n1 = Nat.repr n2 := String.ext hsplit.1
      rw [repr_eq_natDigits, repr_eq_natDigits] at hr
      exact natDigits_inj (List.asString_inj.mp hr)
    · exact String.ext hsplit.2
  · rintro ⟨rfl, rfl⟩
    rfl

/-- Witness for C7 (amended) at second 7, username `"u"`, file `"f"`. -/
theorem claim_C7_witness :
    transferId 7 "u" "f" = toString 7 ++ "_" ++ "u" ++ "_" ++ "f" ∧
      (transferId 7 "u" "f" = transferId 7 "u" "f" ↔ 7 = 7 ∧ ("f" : String) = "f") :=
  claim_C7_amended 7 7 "u" "f" "f"

end Socket
